import Mathlib

/-!
Verification development for the offline mutation queue and sync engine
of the accounting client (source: client/lib/offline.ts).

The engine is embedded shallowly:
* `QueuedRequest`, the durable queue item type, mirrors the TypeScript
  record field by field (the opaque JSON body is modelled as an optional
  string, which the engine never inspects).
* The durable key-value store is modelled by `Store`: the persisted queue
  under the queue key, plus the list of cache keys currently present
  (cache values are irrelevant to the properties studied here).
* Connectivity (`navigator.onLine`) is a boolean parameter, the identity
  credential (`localStorage auth_token`) an `Option String` parameter, and
  the network outcome of replaying an item an `AttemptResult` parameter,
  so that one pass of `processQueue` becomes a pure function from these
  inputs and the store to the returned counters and the new store.
* Batch-internal concurrency (`Promise.all`) is modelled extensionally:
  the results array of `Promise.all` preserves input order, counters are
  commutative sums, and cache invalidation is an idempotent removal, so
  the sequential left fold below computes exactly the same final state.
-/

set_option maxRecDepth 4000

namespace Offline

/-- HTTP methods accepted by the queue (`"POST" | "PUT" | "DELETE"`). -/
inductive Method where
  | post
  | put
  | delete
  deriving DecidableEq

/-- A queued mutation, mirroring the `QueuedRequest` record of the source. -/
structure QueuedRequest where
  id : String
  url : String
  method : Method
  headers : List (String × String)
  body : Option String
  createdAt : Nat
  retryCount : Nat
  deriving DecidableEq

/-- `QUEUE_KEY = "offline_queue_v1"`, the durable key holding the queue. -/
def QUEUE_KEY : String := "offline_queue_v1"

/-- The read-cache namespace, `"offline_cache_v1:"` in the source. -/
def CACHE_NS : String := "offline_cache_v1:"

/-- The durable on-device store as the engine sees it: the persisted queue
and the set of cache keys currently present. -/
structure Store where
  queue : List QueuedRequest
  cacheKeys : List String
  deriving DecidableEq

/-- `cacheKeyFor(url)`: the fixed namespace, `GET:`, the URL, and `:t=` plus
the credential fingerprint. The source tests the token with a JavaScript
truthiness check, so a missing credential and an empty-string credential
both yield the `anon` marker; otherwise the fingerprint is `token.slice(0,16)`. -/
def cacheKeyFor (token : Option String) (url : String) : String :=
  CACHE_NS ++ "GET:" ++ url ++ ":t=" ++
    (match token with
     | some t => if t.isEmpty then "anon" else t.take 16
     | none => "anon")

/-- The identity fingerprint embedded in a cache key by `cacheKeyFor`. -/
def cacheFingerprint : Option String → String
  | some t => if t.isEmpty then "anon" else t.take 16
  | none => "anon"

/-- Outcome of replaying one queued item against the backend: an HTTP
status code, or a thrown network/transport exception. -/
inductive AttemptResult where
  | status (code : Nat)
  | exception
  deriving DecidableEq

/-- The path component of a queued URL (`new URL(item.url, origin).pathname`):
queued URLs in this client are app-relative paths, whose pathname is the part
before any query string or fragment. Computed on the character list. -/
def pathChars (url : String) : List Char :=
  url.toList.takeWhile (fun c => c != '?' && c != '#')

/-- JavaScript `s.split('/')` on a character list: segments between slashes,
empty segments included (`"/api/x".split('/') = ["", "api", "x"]`). -/
def splitSlashAux : List Char → List Char → List (List Char)
  | [], acc => [acc.reverse]
  | c :: rest, acc =>
      if c = '/' then acc.reverse :: splitSlashAux rest []
      else splitSlashAux rest (c :: acc)

/-- `urlPath.split('/').filter(Boolean)[1]`: the second non-empty segment of
the URL path, the resource-type token used for cache invalidation. -/
def resourceTypeOf (url : String) : Option String :=
  (((splitSlashAux (pathChars url) []).filter
      (fun s => !s.isEmpty)).get? 1).map (fun cs => String.mk cs)

/-- JavaScript `haystack.includes(needle)`: substring containment. -/
def strIncludes (haystack needle : String) : Bool :=
  decide (List.IsInfix needle.toList haystack.toList)

/-- JavaScript `s.startsWith(pre)`, on the character lists. -/
def strStartsWith (s pre : String) : Bool :=
  pre.toList.isPrefixOf s.toList

/-- Cache invalidation on success: remove every key that contains the
resource-type token and lies under the read-cache namespace
(`key.includes(resourceType) && key.startsWith(CACHE_PREFIX)`); when no
resource token was derived, the cache is untouched. -/
def invalidateCache (keys : List String) : Option String → List String
  | none => keys
  | some t => keys.filter (fun k => !(strIncludes k t && strStartsWith k CACHE_NS))

/-- `item.retryCount += 1` performed on a failed attempt. -/
def bump (item : QueuedRequest) : QueuedRequest :=
  { item with retryCount := item.retryCount + 1 }

/-- Net effect of one item's attempt: the surviving item (if kept for
retry), the increments to the two counters, and the resource token whose
cache entries are invalidated. -/
structure ItemOutcome where
  survivor : Option QueuedRequest
  processedInc : Nat
  failedInc : Nat
  invalidate : Option String
  deriving DecidableEq

/-- The retryable branch shared by 5xx/3xx responses and exceptions:
increment `retryCount`; keep the item while the new count is at most 5,
otherwise count it failed and drop it. -/
def retryOutcome (item : QueuedRequest) : ItemOutcome :=
  if (bump item).retryCount ≤ 5 then ⟨some (bump item), 0, 0, none⟩
  else ⟨none, 0, 1, none⟩

/-- Classification of one attempt, mirroring the branch order of the
source: `!res.ok` first (with the 4xx drop inside it), the success branch
otherwise, and the catch handler for exceptions. -/
def processItem (item : QueuedRequest) (r : AttemptResult) : ItemOutcome :=
  match r with
  | .status code =>
      if ¬ (200 ≤ code ∧ code < 300) then
        if 400 ≤ code ∧ code < 500 then ⟨none, 0, 1, none⟩
        else retryOutcome item
      else ⟨none, 1, 0, resourceTypeOf item.url⟩
  | .exception => retryOutcome item

/-- In-pass accumulator: survivors collected so far, both counters, and
the current cache-key set. -/
structure PassState where
  survivors : List QueuedRequest
  processed : Nat
  failed : Nat
  cacheKeys : List String
  deriving DecidableEq

/-- Fold one item into the pass state. -/
def runItem (outcome : QueuedRequest → AttemptResult) (st : PassState)
    (item : QueuedRequest) : PassState :=
  let o := processItem item (outcome item)
  { survivors := st.survivors ++ o.survivor.toList
    processed := st.processed + o.processedInc
    failed := st.failed + o.failedInc
    cacheKeys := invalidateCache st.cacheKeys o.invalidate }

/-- Process one batch (`Promise.all` over the batch, results appended in
input order). -/
def runBatch (outcome : QueuedRequest → AttemptResult) (st : PassState)
    (batch : List QueuedRequest) : PassState :=
  batch.foldl (runItem outcome) st

/-- Fuel-indexed slicing loop (`for i = 0; i < q.length; i += 3`): the fuel
is the list length at the top call, so the zero-fuel case is unreachable. -/
def chunks3Aux : Nat → List α → List (List α)
  | _, [] => []
  | 0, _ :: _ => []
  | fuel + 1, a :: rest => (a :: rest.take 2) :: chunks3Aux fuel (rest.drop 2)

/-- The batches `q.slice(i, i+3)` built by the source loop. -/
def chunks3 (l : List α) : List (List α) := chunks3Aux l.length l

/-- The record returned by `processQueue`. -/
structure SyncResult where
  processed : Nat
  failed : Nat
  remaining : Nat
  deriving DecidableEq

/-- The all-zero result returned on the offline and empty-queue
short-circuits. -/
def emptyResult : SyncResult := ⟨0, 0, 0⟩

/-- One pass of `processQueue`: the offline short-circuit, the empty-queue
short-circuit, then the batched fold over the loaded queue followed by
`saveQueue(remaining)` replacing the durable queue with the survivors. -/
def processQueue (online : Bool) (outcome : QueuedRequest → AttemptResult)
    (store : Store) : SyncResult × Store :=
  if !online then (emptyResult, store)
  else if store.queue.length = 0 then (emptyResult, store)
  else
    let st := (chunks3 store.queue).foldl (runBatch outcome)
      ⟨[], 0, 0, store.cacheKeys⟩
    (⟨st.processed, st.failed, st.survivors.length⟩,
     ⟨st.survivors, st.cacheKeys⟩)

/-- The caller-supplied part of an enqueued operation
(`Omit<QueuedRequest, "id" | "createdAt" | "retryCount">`). -/
structure NewRequest where
  url : String
  method : Method
  headers : List (String × String)
  body : Option String
  deriving DecidableEq

/-- The item built by `enqueue`: identifier and timestamp (produced by
`Date.now()`/`Math.random()` in the source, passed in here), `retryCount`
fixed at 0, and the caller's fields spread in. -/
def mkQueued (id : String) (now : Nat) (req : NewRequest) : QueuedRequest :=
  { id := id, url := req.url, method := req.method, headers := req.headers,
    body := req.body, createdAt := now, retryCount := 0 }

/-- `enqueue`: load the queue, push the new item, save. Purely a durable
append; the function performs no network request and touches no cache key. -/
def enqueue (id : String) (now : Nat) (req : NewRequest) (store : Store) :
    Store :=
  { store with queue := store.queue ++ [mkQueued id now req] }

/-- Pre-attempt backoff in milliseconds:
`retryCount > 0 ? min(1000 * 2^(retryCount-1), 30000) : 0`. -/
def backoffTime (retryCount : Nat) : Nat :=
  if retryCount > 0 then min (1000 * 2 ^ (retryCount - 1)) 30000 else 0

/-- Transient failure in the sense of the specification: a 5xx status or a
thrown network/transport exception. -/
def isTransient : AttemptResult → Bool
  | .status code => decide (500 ≤ code)
  | .exception => true

/-- The failure taxonomy of the specification: success (2xx), client error
(4xx), or transient failure (5xx or exception). -/
def modeledOutcome : AttemptResult → Prop
  | .status code => (200 ≤ code ∧ code < 300) ∨ (400 ≤ code ∧ code < 500) ∨ 500 ≤ code
  | .exception => True

/-! ### Helper lemmas -/

/-- Fuel never runs out when it starts at the list length: concatenating
the slices recovers the list. -/
theorem chunks3Aux_join {α : Type} :
    ∀ (fuel : Nat) (l : List α), l.length ≤ fuel →
      (chunks3Aux fuel l).flatten = l := by
  intro fuel
  induction fuel with
  | zero =>
    intro l h
    cases l with
    | nil => rfl
    | cons a rest => simp at h
  | succ f ih =>
    intro l h
    cases l with
    | nil => rfl
    | cons a rest =>
      have hrest : (rest.drop 2).length ≤ f := by
        simp only [List.length_drop]
        simp only [List.length_cons] at h
        omega
      simp only [chunks3Aux, List.flatten_cons, ih (rest.drop 2) hrest,
        List.cons_append, List.take_append_drop]

/-- The batches concatenate back to the original queue. -/
theorem chunks3_join {α : Type} (l : List α) : (chunks3 l).flatten = l :=
  chunks3Aux_join l.length l le_rfl

/-- Folding batch-by-batch equals folding over the whole list. -/
theorem chunks3Aux_foldl {α β : Type} (g : β → α → β) :
    ∀ (fuel : Nat) (l : List α), l.length ≤ fuel → ∀ (init : β),
      (chunks3Aux fuel l).foldl (fun st b => b.foldl g st) init =
        l.foldl g init := by
  intro fuel
  induction fuel with
  | zero =>
    intro l h init
    cases l with
    | nil => rfl
    | cons a rest => simp at h
  | succ f ih =>
    intro l h init
    cases l with
    | nil => rfl
    | cons a rest =>
      have hrest : (rest.drop 2).length ≤ f := by
        simp only [List.length_drop]
        simp only [List.length_cons] at h
        omega
      simp only [chunks3Aux, List.foldl_cons,
        ih (rest.drop 2) hrest ((rest.take 2).foldl g (g init a))]
      rw [← List.foldl_append, List.take_append_drop]

/-- Folding the batches of `chunks3` equals folding over the queue. -/
theorem chunks3_foldl {α β : Type} (g : β → α → β) (l : List α) (init : β) :
    (chunks3 l).foldl (fun st b => b.foldl g st) init = l.foldl g init :=
  chunks3Aux_foldl g l.length l le_rfl init

/-- Every dispatched batch is non-empty and holds at most 3 items. -/
theorem chunks3Aux_mem {α : Type} :
    ∀ (fuel : Nat) (l : List α) (b : List α), b ∈ chunks3Aux fuel l →
      b ≠ [] ∧ b.length ≤ 3 := by
  intro fuel
  induction fuel with
  | zero =>
    intro l b hb
    cases l with
    | nil => simp [chunks3Aux] at hb
    | cons a rest => simp [chunks3Aux] at hb
  | succ f ih =>
    intro l b hb
    cases l with
    | nil => simp [chunks3Aux] at hb
    | cons a rest =>
      simp only [chunks3Aux, List.mem_cons] at hb
      rcases hb with hb | hb
      · subst hb
        refine ⟨by simp, ?_⟩
        simp only [List.length_cons, List.length_take]
        omega
      · exact ih (rest.drop 2) b hb

/-- The number of batches is the length of the queue divided by 3,
rounded up. -/
theorem chunks3Aux_length {α : Type} :
    ∀ (fuel : Nat) (l : List α), l.length ≤ fuel →
      (chunks3Aux fuel l).length = (l.length + 2) / 3 := by
  intro fuel
  induction fuel with
  | zero =>
    intro l h
    cases l with
    | nil => simp [chunks3Aux]
    | cons a rest => simp at h
  | succ f ih =>
    intro l h
    cases l with
    | nil => simp [chunks3Aux]
    | cons a rest =>
      have hrest : (rest.drop 2).length ≤ f := by
        simp only [List.length_drop]
        simp only [List.length_cons] at h
        omega
      simp only [chunks3Aux, List.length_cons, ih (rest.drop 2) hrest,
        List.length_drop]
      omega

/-- The batch sizes depend only on the length of the queue. -/
theorem chunks3Aux_map_length {α β : Type} :
    ∀ (fuel : Nat) (l : List α) (m : List β), l.length = m.length →
      (chunks3Aux fuel l).map List.length =
        (chunks3Aux fuel m).map List.length := by
  intro fuel
  induction fuel with
  | zero =>
    intro l m hlen
    cases l with
    | nil => cases m with
      | nil => rfl
      | cons b mr => simp at hlen
    | cons a lr => cases m with
      | nil => simp at hlen
      | cons b mr => rfl
  | succ f ih =>
    intro l m hlen
    cases l with
    | nil => cases m with
      | nil => rfl
      | cons b mr => simp at hlen
    | cons a lr => cases m with
      | nil => simp at hlen
      | cons b mr =>
        simp only [List.length_cons] at hlen
        have hdrop : (lr.drop 2).length = (mr.drop 2).length := by
          simp only [List.length_drop]; omega
        simp only [chunks3Aux, List.map_cons, ih (lr.drop 2) (mr.drop 2) hdrop,
          List.length_cons, List.length_take]
        rw [show lr.length = mr.length from by omega]

/-- Survivors produced by a pass over `q`, in queue order. -/
def survivorsOf (outcome : QueuedRequest → AttemptResult)
    (q : List QueuedRequest) : List QueuedRequest :=
  q.filterMap (fun i => (processItem i (outcome i)).survivor)

/-- Folding items accumulates the survivors in order. -/
theorem foldl_runItem_survivors (outcome : QueuedRequest → AttemptResult) :
    ∀ (q : List QueuedRequest) (st : PassState),
      (q.foldl (runItem outcome) st).survivors =
        st.survivors ++ survivorsOf outcome q := by
  intro q
  induction q with
  | nil => intro st; simp [survivorsOf]
  | cons i rest ih =>
    intro st
    simp only [List.foldl_cons, ih, survivorsOf, List.filterMap_cons, runItem]
    cases h : (processItem i (outcome i)).survivor with
    | none => simp [h, survivorsOf]
    | some s => simp [h, survivorsOf]

/-- Folding items accumulates the processed counter. -/
theorem foldl_runItem_processed (outcome : QueuedRequest → AttemptResult) :
    ∀ (q : List QueuedRequest) (st : PassState),
      (q.foldl (runItem outcome) st).processed =
        st.processed +
          (q.map (fun i => (processItem i (outcome i)).processedInc)).sum := by
  intro q
  induction q with
  | nil => intro st; simp
  | cons i rest ih =>
    intro st
    simp only [List.foldl_cons, ih, runItem, List.map_cons, List.sum_cons]
    omega

/-- Folding items accumulates the failed counter. -/
theorem foldl_runItem_failed (outcome : QueuedRequest → AttemptResult) :
    ∀ (q : List QueuedRequest) (st : PassState),
      (q.foldl (runItem outcome) st).failed =
        st.failed +
          (q.map (fun i => (processItem i (outcome i)).failedInc)).sum := by
  intro q
  induction q with
  | nil => intro st; simp
  | cons i rest ih =>
    intro st
    simp only [List.foldl_cons, ih, runItem, List.map_cons, List.sum_cons]
    omega

/-- Every attempted item is accounted exactly once: it is processed,
failed, or kept as a survivor. -/
theorem processItem_accounting (i : QueuedRequest) (r : AttemptResult) :
    (processItem i r).processedInc + (processItem i r).failedInc +
      (processItem i r).survivor.toList.length = 1 := by
  cases r with
  | status code =>
    simp only [processItem]
    split_ifs with h1 h2 <;> (simp [retryOutcome]; try (split_ifs <;> simp))
  | exception =>
    simp only [processItem, retryOutcome]
    split_ifs <;> simp

/-- The in-pass state reached from an empty accumulator over queue `q`
with the cache keys `ck`. -/
def passState (outcome : QueuedRequest → AttemptResult)
    (q : List QueuedRequest) (ck : List String) : PassState :=
  q.foldl (runItem outcome) ⟨[], 0, 0, ck⟩

/-- Unfolding of an online pass over a non-empty queue: the returned
counters and the saved store come from the item-by-item fold. -/
theorem processQueue_online (outcome : QueuedRequest → AttemptResult)
    (q : List QueuedRequest) (ck : List String) (h : q ≠ []) :
    processQueue true outcome ⟨q, ck⟩ =
      (⟨(passState outcome q ck).processed, (passState outcome q ck).failed,
        (passState outcome q ck).survivors.length⟩,
       ⟨(passState outcome q ck).survivors,
        (passState outcome q ck).cacheKeys⟩) := by
  have hlen : ¬ q.length = 0 := by
    intro hc
    exact h (List.length_eq_zero.mp hc)
  simp only [processQueue, Bool.not_true, if_neg, hlen, if_false, Bool.false_eq_true]
  rw [show (chunks3 q).foldl (runBatch outcome) ⟨[], 0, 0, ck⟩ =
      (chunks3 q).foldl (fun st b => b.foldl (runItem outcome) st) ⟨[], 0, 0, ck⟩
    from rfl]
  rw [chunks3_foldl]
  rfl

/-- Under the specification's failure taxonomy, an item survives exactly
when its outcome is transient and the incremented retry count is at most 5,
and the survivor is the item with `retryCount` bumped. -/
theorem processItem_survivor_modeled (i : QueuedRequest) (r : AttemptResult)
    (h : modeledOutcome r) :
    (processItem i r).survivor =
      if isTransient r = true ∧ i.retryCount + 1 ≤ 5 then some (bump i)
      else none := by
  cases r with
  | exception =>
    simp only [processItem, retryOutcome, isTransient, true_and]
    split_ifs with h1 h2 <;> simp_all [bump]
  | status code =>
    simp only [processItem, retryOutcome, isTransient, decide_eq_true_eq]
    rcases h with h | h | h <;> split_ifs <;> simp_all [bump] <;> omega

/-- The three counters together account for every queued item once. -/
theorem survivorsOf_counts (outcome : QueuedRequest → AttemptResult) :
    ∀ q : List QueuedRequest,
      (q.map (fun i => (processItem i (outcome i)).processedInc)).sum +
        (q.map (fun i => (processItem i (outcome i)).failedInc)).sum +
        (survivorsOf outcome q).length = q.length := by
  intro q
  induction q with
  | nil => simp [survivorsOf]
  | cons i rest ih =>
    have hacc := processItem_accounting i (outcome i)
    have hlen : (survivorsOf outcome (i :: rest)).length =
        (processItem i (outcome i)).survivor.toList.length +
          (survivorsOf outcome rest).length := by
      simp only [survivorsOf, List.filterMap_cons]
      cases hc : (processItem i (outcome i)).survivor <;> (simp [hc]; try omega)
    simp only [survivorsOf] at hlen ih ⊢
    simp only [List.map_cons, List.sum_cons, List.length_cons]
    omega

/-- A concrete queued mutation used to instantiate the universally
quantified theorems below. -/
def sampleItem : QueuedRequest :=
  ⟨"item-1", "/api/users/1", .post, [], none, 0, 0⟩

/-- Iterated sync passes: each pass loads the store persisted by the
previous one. -/
def iterPass (outcome : QueuedRequest → AttemptResult) :
    Nat → Store → Store
  | 0, store => store
  | n + 1, store => iterPass outcome n (processQueue true outcome store).2

/-! ### Claims -/

/-- C1: for every completed online sync pass over a non-empty loaded
queue whose items resolve to the modeled outcomes, the queue persisted to
the durable store at the end of the pass is exactly the in-order list of
surviving items — those with a transient failure whose incremented
`retryCount` is still at most 5, with `retryCount` bumped — so no
resolved item remains in it and no pending item is omitted from it. -/
theorem C1_persisted_queue_is_survivors (q : List QueuedRequest)
    (ck : List String) (outcome : QueuedRequest → AttemptResult)
    (hne : q ≠ []) (hm : ∀ i ∈ q, modeledOutcome (outcome i)) :
    (processQueue true outcome ⟨q, ck⟩).2.queue =
      q.filterMap (fun i =>
        if isTransient (outcome i) = true ∧ i.retryCount + 1 ≤ 5
        then some (bump i) else none) := by
  rw [processQueue_online outcome q ck hne]
  show (passState outcome q ck).survivors = _
  rw [passState, foldl_runItem_survivors]
  simp only [List.nil_append]
  exact List.filterMap_congr
    (fun i hi => processItem_survivor_modeled i (outcome i) (hm i hi))

/-- Witness for C1: a single item answered 2xx leaves an empty persisted
queue. -/
theorem C1_persisted_queue_is_survivors_w :
    ([sampleItem] ≠ ([] : List QueuedRequest)) ∧
    (processQueue true (fun _ => AttemptResult.status 200)
      ⟨[sampleItem], []⟩).2.queue = [] := by
  refine ⟨by simp, ?_⟩
  have h := C1_persisted_queue_is_survivors [sampleItem] []
    (fun _ => AttemptResult.status 200) (by simp)
    (by intro i _; exact Or.inl (by omega))
  rw [h]
  rfl

/-- C2: a transient outcome (5xx status or thrown exception) increments
the item's `retryCount` by exactly one; the item survives exactly when the
new count is at most 5, and otherwise counts one failure and is dropped.
Iterating passes on an always-failing item: after 5 passes it is still
queued with `retryCount = 5`, the 6th pass reports it failed, and from the
6th pass on it is gone from the persisted queue. -/
theorem C2_transient_retry_policy :
    (∀ (item : QueuedRequest) (r : AttemptResult), isTransient r = true →
        processItem item r =
          if item.retryCount + 1 ≤ 5 then ⟨some (bump item), 0, 0, none⟩
          else ⟨none, 0, 1, none⟩)
    ∧ (∀ item : QueuedRequest, (bump item).retryCount = item.retryCount + 1)
    ∧ (iterPass (fun _ => AttemptResult.exception) 5
        ⟨[sampleItem], []⟩).queue = [{ sampleItem with retryCount := 5 }]
    ∧ (processQueue true (fun _ => AttemptResult.exception)
        (iterPass (fun _ => AttemptResult.exception) 5
          ⟨[sampleItem], []⟩)).1 = ⟨0, 1, 0⟩
    ∧ (iterPass (fun _ => AttemptResult.exception) 6
        ⟨[sampleItem], []⟩).queue = [] := by
  refine ⟨?_, fun _ => rfl, rfl, rfl, rfl⟩
  intro item r hr
  cases r with
  | exception => rfl
  | status code =>
    simp only [isTransient, decide_eq_true_eq] at hr
    simp only [processItem]
    rw [if_pos (by omega), if_neg (by omega)]
    rfl

/-- Witness for C2: an exception on a fresh item keeps it with
`retryCount` 1. -/
theorem C2_transient_retry_policy_w :
    isTransient AttemptResult.exception = true ∧
    processItem sampleItem AttemptResult.exception =
      ⟨some (bump sampleItem), 0, 0, none⟩ := by
  refine ⟨rfl, ?_⟩
  have h := C2_transient_retry_policy.1 sampleItem AttemptResult.exception rfl
  rw [h]
  rfl

/-- C3: a 4xx response drops the item on the spot — one failure counted,
no survivor, no retry-count change recorded anywhere — regardless of the
item's current `retryCount`. -/
theorem C3_client_error_dropped :
    ∀ (item : QueuedRequest) (code : Nat), 400 ≤ code → code < 500 →
      processItem item (.status code) = ⟨none, 0, 1, none⟩ := by
  intro item code h4 h5
  simp only [processItem]
  rw [if_pos (by omega), if_pos ⟨h4, h5⟩]

/-- Witness for C3: a 404 on the first attempt is dropped immediately. -/
theorem C3_client_error_dropped_w :
    400 ≤ 404 ∧ 404 < 500 ∧
    processItem sampleItem (.status 404) = ⟨none, 0, 1, none⟩ :=
  ⟨by omega, by omega,
    C3_client_error_dropped sampleItem 404 (by omega) (by omega)⟩

/-- C4: the pre-attempt backoff is 0 ms at `retryCount = 0` and
`min(1000 * 2^(retryCount-1), 30000)` ms otherwise; for retry counts 1..5
it is 1000, 2000, 4000, 8000, 16000 ms. -/
theorem C4_backoff_schedule :
    backoffTime 0 = 0 ∧
    (∀ r : Nat, 0 < r → backoffTime r = min (1000 * 2 ^ (r - 1)) 30000) ∧
    backoffTime 1 = 1000 ∧ backoffTime 2 = 2000 ∧ backoffTime 3 = 4000 ∧
    backoffTime 4 = 8000 ∧ backoffTime 5 = 16000 := by
  refine ⟨rfl, ?_, by decide, by decide, by decide, by decide, by decide⟩
  intro r hr
  simp [backoffTime, hr]

/-- Witness for C4: the formula instantiated at `retryCount = 5`. -/
theorem C4_backoff_schedule_w :
    0 < 5 ∧ backoffTime 5 = min (1000 * 2 ^ (5 - 1)) 30000 :=
  ⟨by omega, C4_backoff_schedule.2.1 5 (by omega)⟩

/-- C5: a 2xx response counts one processed item, drops it, and
invalidates by the resource-type token — the second non-empty segment of
the URL path; a key is removed exactly when it lies under the read-cache
namespace and contains the token as a substring, and when the path has no
second segment the cache is untouched. -/
theorem C5_success_invalidates_resource_cache :
    (∀ (item : QueuedRequest) (code : Nat), 200 ≤ code → code < 300 →
        processItem item (.status code) =
          ⟨none, 1, 0, resourceTypeOf item.url⟩)
    ∧ (∀ (keys : List String) (t k : String),
        k ∈ invalidateCache keys (some t) ↔
          k ∈ keys ∧
            ¬(strIncludes k t = true ∧ strStartsWith k CACHE_NS = true))
    ∧ (∀ keys : List String, invalidateCache keys none = keys)
    ∧ resourceTypeOf "/api/users/123" = some "users"
    ∧ resourceTypeOf "/" = none := by
  refine ⟨?_, ?_, fun _ => rfl, rfl, rfl⟩
  · intro item code h1 h2
    simp only [processItem]
    rw [if_neg (not_not_intro ⟨h1, h2⟩)]
  · intro keys t k
    simp only [invalidateCache, List.mem_filter]
    cases hx : strIncludes k t <;> cases hy : strStartsWith k CACHE_NS <;>
      simp [hx, hy]

/-- Witness for C5: a 200 on `/api/users/1` yields the token `users` and
the matching namespaced key is removed. -/
theorem C5_success_invalidates_resource_cache_w :
    200 ≤ 200 ∧ 200 < 300 ∧
    processItem sampleItem (.status 200) = ⟨none, 1, 0, some "users"⟩ ∧
    invalidateCache ["offline_cache_v1:GET:/api/users/1:t=anon", "x_users"]
      (some "users") = ["x_users"] := by
  refine ⟨by omega, by omega, ?_, by decide⟩
  have h := C5_success_invalidates_resource_cache.1 sampleItem 200
    (by omega) (by omega)
  rw [h]
  rfl

/-- C6: a non-empty queue of `n` items is partitioned in order into
`⌈n/3⌉` consecutive non-empty batches of at most 3 items, and a queue of
7 items yields batch sizes 3, 3, 1. Batches are folded strictly one after
another in the model (`processQueue` folds `runBatch` over `chunks3`). -/
theorem C6_batching :
    (∀ q : List QueuedRequest, q ≠ [] →
        (chunks3 q).flatten = q ∧
        (∀ b ∈ chunks3 q, b ≠ [] ∧ b.length ≤ 3) ∧
        (chunks3 q).length = (q.length + 2) / 3)
    ∧ (∀ q : List QueuedRequest, q.length = 7 →
        (chunks3 q).map List.length = [3, 3, 1]) := by
  constructor
  · intro q _
    exact ⟨chunks3_join q, fun b hb => chunks3Aux_mem q.length q b hb,
      chunks3Aux_length q.length q le_rfl⟩
  · intro q h7
    simp only [chunks3, h7]
    rw [chunks3Aux_map_length 7 q (List.replicate 7 ()) (by simp [h7])]
    rfl

/-- Witness for C6: seven concrete items produce batches of sizes
3, 3, 1. -/
theorem C6_batching_w :
    (List.replicate 7 sampleItem).length = 7 ∧
    (chunks3 (List.replicate 7 sampleItem)).map List.length = [3, 3, 1] :=
  ⟨rfl, C6_batching.2 (List.replicate 7 sampleItem) rfl⟩

/-- C7: with connectivity down, `processQueue` returns all-zero counters
and the durable store — queue and cache keys alike — is left exactly as
it was. -/
theorem C7_offline_noop (store : Store)
    (outcome : QueuedRequest → AttemptResult) :
    processQueue false outcome store = (⟨0, 0, 0⟩, store) := rfl

/-- C8 counterexample: two distinct credentials sharing their first 16
characters produce the same cache key, and the literal credential `anon`
collides with the no-credential key. -/
theorem C8_cache_key_counterexample :
    ("abcdefghijklmnopQ" : String) ≠ "abcdefghijklmnopR" ∧
    cacheKeyFor (some "abcdefghijklmnopQ") "/api/x" =
      cacheKeyFor (some "abcdefghijklmnopR") "/api/x" ∧
    cacheKeyFor (some "anon") "/api/x" = cacheKeyFor none "/api/x" :=
  ⟨by decide, rfl, rfl⟩

/-- C8 (amended): the key is the namespace, `GET:`, the URL and `:t=`
followed by the credential fingerprint (first 16 characters, or `anon`
for a missing or empty credential); keys differ whenever the
fingerprints differ — in particular whenever two non-empty credentials
differ within their first 16 characters, or a credential whose 16-char
prefix is not the literal `anon` is compared with no credential. -/
theorem C8_cache_key_scoping :
    (∀ (token : Option String) (url : String),
        cacheKeyFor token url =
          CACHE_NS ++ "GET:" ++ url ++ ":t=" ++ cacheFingerprint token)
    ∧ (∀ (t1 t2 : Option String) (url : String),
        cacheFingerprint t1 ≠ cacheFingerprint t2 →
        cacheKeyFor t1 url ≠ cacheKeyFor t2 url)
    ∧ (∀ (s1 s2 url : String), s1.isEmpty = false → s2.isEmpty = false →
        s1.take 16 ≠ s2.take 16 →
        cacheKeyFor (some s1) url ≠ cacheKeyFor (some s2) url)
    ∧ (∀ (s url : String), s.isEmpty = false → s.take 16 ≠ "anon" →
        cacheKeyFor (some s) url ≠ cacheKeyFor none url) := by
  have hcancel : ∀ a x y : String, a ++ x = a ++ y → x = y := by
    intro a x y h
    have hd := congrArg String.data h
    simp only [String.data_append] at hd
    exact String.ext (List.append_cancel_left hd)
  have hform : ∀ (token : Option String) (url : String),
      cacheKeyFor token url =
        CACHE_NS ++ "GET:" ++ url ++ ":t=" ++ cacheFingerprint token := by
    intro token url
    cases token <;> rfl
  have hinj : ∀ (t1 t2 : Option String) (url : String),
      cacheFingerprint t1 ≠ cacheFingerprint t2 →
      cacheKeyFor t1 url ≠ cacheKeyFor t2 url := by
    intro t1 t2 url hne hkey
    rw [hform t1 url, hform t2 url] at hkey
    exact hne (hcancel (CACHE_NS ++ "GET:" ++ url ++ ":t=") _ _ hkey)
  refine ⟨hform, hinj, ?_, ?_⟩
  · intro s1 s2 url h1 h2 htake
    refine hinj (some s1) (some s2) url ?_
    simp only [cacheFingerprint, h1, h2, Bool.false_eq_true, if_false]
    exact htake
  · intro s url h1 h2
    refine hinj (some s) none url ?_
    simp only [cacheFingerprint, h1, Bool.false_eq_true, if_false]
    exact h2

/-- Witness for the amended C8: two credentials differing inside the
16-character window give different keys. -/
theorem C8_cache_key_scoping_w :
    ("user-one-token-x" : String).isEmpty = false ∧
    ("user-two-token-y" : String).isEmpty = false ∧
    ("user-one-token-x" : String).take 16 ≠ ("user-two-token-y" : String).take 16 ∧
    cacheKeyFor (some "user-one-token-x") "/api/x" ≠
      cacheKeyFor (some "user-two-token-y") "/api/x" := by
  refine ⟨rfl, rfl, by decide, ?_⟩
  exact C8_cache_key_scoping.2.2.1 "user-one-token-x" "user-two-token-y"
    "/api/x" rfl rfl (by decide)

/-- C9: `enqueue` builds the new item from the supplied identifier,
timestamp and operation fields with `retryCount = 0`, appends it at the
end of the loaded queue leaving every previously queued item and their
order unchanged, persists the result, and touches nothing else in the
store (in particular it performs no network request and no cache write). -/
theorem C9_enqueue_appends (id : String) (now : Nat) (req : NewRequest)
    (store : Store) :
    (enqueue id now req store).queue =
      store.queue ++ [mkQueued id now req] ∧
    (mkQueued id now req).id = id ∧
    (mkQueued id now req).createdAt = now ∧
    (mkQueued id now req).retryCount = 0 ∧
    (mkQueued id now req).url = req.url ∧
    (mkQueued id now req).method = req.method ∧
    (mkQueued id now req).headers = req.headers ∧
    (mkQueued id now req).body = req.body ∧
    (enqueue id now req store).queue.take store.queue.length = store.queue ∧
    (enqueue id now req store).queue.length = store.queue.length + 1 ∧
    (enqueue id now req store).cacheKeys = store.cacheKeys := by
  refine ⟨rfl, rfl, rfl, rfl, rfl, rfl, rfl, rfl, ?_, by simp [enqueue], rfl⟩
  exact List.take_left store.queue [mkQueued id now req]

/-- C10: over a non-empty queue whose items all resolve to modeled
outcomes, the returned counters satisfy
`processed + failed + remaining = n`: every item lands in exactly one
counter. -/
theorem C10_counters_partition_queue (q : List QueuedRequest)
    (ck : List String) (outcome : QueuedRequest → AttemptResult)
    (hne : q ≠ []) (_hm : ∀ i ∈ q, modeledOutcome (outcome i)) :
    (processQueue true outcome ⟨q, ck⟩).1.processed +
      (processQueue true outcome ⟨q, ck⟩).1.failed +
      (processQueue true outcome ⟨q, ck⟩).1.remaining = q.length := by
  rw [processQueue_online outcome q ck hne]
  show (passState outcome q ck).processed + (passState outcome q ck).failed +
      (passState outcome q ck).survivors.length = q.length
  rw [passState, foldl_runItem_processed, foldl_runItem_failed,
    foldl_runItem_survivors]
  simp only [List.nil_append]
  have h := survivorsOf_counts outcome q
  omega

/-- Witness for C10: one item failing transiently gives
`0 + 0 + 1 = 1`. -/
theorem C10_counters_partition_queue_w :
    ([sampleItem] ≠ ([] : List QueuedRequest)) ∧
    (processQueue true (fun _ => AttemptResult.exception)
        ⟨[sampleItem], []⟩).1.processed +
      (processQueue true (fun _ => AttemptResult.exception)
        ⟨[sampleItem], []⟩).1.failed +
      (processQueue true (fun _ => AttemptResult.exception)
        ⟨[sampleItem], []⟩).1.remaining = 1 := by
  refine ⟨by simp, ?_⟩
  have h := C10_counters_partition_queue [sampleItem] []
    (fun _ => AttemptResult.exception) (by simp) (by intro i _; trivial)
  simpa using h

end Offline
